import Mathlib

/-!
Verification development for the alice-aqua level editor / game runtime core.

The development shallowly embeds the parts of the code base that the
properties below are about:

* the pick projection and drag-rectangle logic of `src/objs/cursor.ts`
  (`getMousePickOnMesh`, `getMousePickOnPlane`, `Cursor.updateFromPickTarget`,
  `Cursor.updateWithMouseDown`);
* the bounded stage cache of `src/index.ts` (`StageManager.doLoad`,
  `StageManager.loadFromURL`, `StageManager.dispose`, `Stage.dispose`);
* the editor object manager of `src/index.ts` (`objectManager.create` /
  `objectManager.destroy`);
* the shift-drag rectangle brush commit of `src/index.ts`.

Scalar coordinates are modelled as rationals (the source uses JS doubles but
only ever combines the inputs by field arithmetic, so every run with rational
inputs is exact).  Fallible operations (a pick whose direction table lookup
could miss, a JS expression that would throw) are modelled with `Option`.
-/

/-- Three-component vector, modelling `BABYLON.Vector3` as used by the
cursor and stage code (exact rational components). -/
structure Vec3 where
  x : ℚ
  y : ℚ
  z : ℚ
deriving DecidableEq, Repr

namespace Vec3

/-- Componentwise sum, modelling `Vector3.add`. -/
def add (a b : Vec3) : Vec3 := ⟨a.x + b.x, a.y + b.y, a.z + b.z⟩

/-- Componentwise difference, modelling `Vector3.subtract`. -/
def sub (a b : Vec3) : Vec3 := ⟨a.x - b.x, a.y - b.y, a.z - b.z⟩

/-- Scalar multiple, modelling `Vector3.scale`. -/
def scale (a : Vec3) (s : ℚ) : Vec3 := ⟨a.x * s, a.y * s, a.z * s⟩

/-- Componentwise minimum, modelling `Vector3.Minimize`. -/
def minimize (a b : Vec3) : Vec3 := ⟨min a.x b.x, min a.y b.y, min a.z b.z⟩

/-- Componentwise maximum, modelling `Vector3.Maximize`. -/
def maximize (a b : Vec3) : Vec3 := ⟨max a.x b.x, max a.y b.y, max a.z b.z⟩

/-- The zero vector, modelling `Vector3.Zero()`. -/
def zero : Vec3 := ⟨0, 0, 0⟩

/-- The all-ones vector, modelling `VECTOR_ONE` in cursor.ts. -/
def one : Vec3 := ⟨1, 1, 1⟩

/-- The all-halves vector, modelling `VECTOR_HALF` in cursor.ts. -/
def half : Vec3 := ⟨1/2, 1/2, 1/2⟩

end Vec3

/-- Names for the three coordinate axes (the `'x' | 'y' | 'z'` strings of
cursor.ts). -/
inductive Axis
  | x
  | y
  | z
deriving DecidableEq, Repr

/-- Component along an axis, modelling the JS indexing `vector[axis]`. -/
def Vec3.comp (v : Vec3) : Axis → ℚ
  | Axis.x => v.x
  | Axis.y => v.y
  | Axis.z => v.z

/-- A picking ray (origin and direction), modelling `BABYLON.Ray` as produced
by `scene.createPickingRay` (external collaborator, taken as input here). -/
structure Ray where
  origin : Vec3
  direction : Vec3
deriving DecidableEq, Repr

/-- A successful mesh pick, modelling the `hit` part of the result of
`scene.pickWithRay` in cursor.ts lines 22-26: the picked point and the
face normal from `pick.getNormal(true, false)` (external collaborator,
taken as input here; `none` models `pick.hit === false`). -/
structure PickHit where
  pickedPoint : Vec3
  normal : Vec3
deriving DecidableEq, Repr

/-- Per-axis lattice snapping, modelling cursor.ts line 27 / line 39:
`position.copyFromFloats(Math.floor(position.x + 0.5), ...)`. -/
def snap (v : Vec3) : Vec3 :=
  ⟨((⌊v.x + 1/2⌋ : ℤ) : ℚ), ((⌊v.y + 1/2⌋ : ℤ) : ℚ), ((⌊v.z + 1/2⌋ : ℤ) : ℚ)⟩

/-- The point where a ray meets the ground plane, modelling cursor.ts
line 26: `ray.origin.add(ray.direction.scale(-ray.origin.y / ray.direction.y))`. -/
def groundPoint (ray : Ray) : Vec3 :=
  ray.origin.add (ray.direction.scale (-ray.origin.y / ray.direction.y))

/-- The six axis-aligned unit normals, modelling `CURSOR_NORMALS` of
cursor.ts lines 12-19 (same order). -/
def CURSOR_NORMALS : List Vec3 :=
  [⟨1, 0, 0⟩, ⟨-1, 0, 0⟩, ⟨0, 1, 0⟩, ⟨0, -1, 0⟩, ⟨0, 0, 1⟩, ⟨0, 0, -1⟩]

/-- Resolution of an arbitrary face normal to one of the six cursor normals,
modelling cursor.ts lines 29-31:
`max = Math.max(Math.abs(x), Math.abs(y), Math.abs(z))` and
`CURSOR_NORMALS[[x, -x, y, -y, z, -z].indexOf(max)]`.
The JS indexing yields `undefined` when the index misses, modelled by
`Option` via `List.get?` (we prove below it never misses). -/
def cursorNorm (n : Vec3) : Option Vec3 :=
  let cands := [n.x, -n.x, n.y, -n.y, n.z, -n.z]
  let m := max |n.x| (max |n.y| |n.z|)
  CURSOR_NORMALS.get? (cands.indexOf m)

/-- Surface projection, modelling `getMousePickOnMesh` of cursor.ts
lines 21-33.  The picking ray and the pick result of the (external) scene
are inputs; the returned pair is (snapped position, resolved cursor normal). -/
def getMousePickOnMesh (ray : Ray) (pick : Option PickHit) : Option (Vec3 × Vec3) :=
  let pn : Vec3 × Vec3 :=
    match pick with
    | some hit => (hit.pickedPoint, hit.normal)
    | none => (groundPoint ray, ⟨0, 1, 0⟩)
  let position := snap pn.1
  (cursorNorm pn.2).map fun norm => (position, norm)

/-- Plane projection, modelling `getMousePickOnPlane` of cursor.ts
lines 35-41: intersects the ray with the plane `axis = val` and snaps. -/
def getMousePickOnPlane (ray : Ray) (axis : Axis) (val : ℚ) : Vec3 :=
  let scale := (val - ray.origin.comp axis) / ray.direction.comp axis
  snap (ray.origin.add (ray.direction.scale scale))

/-- One row of the `DIRECTIONS` table of cursor.ts lines 45-55:
rotation coefficient (of pi/2), delta, drag axis, scaling permutation. -/
structure DirEntry where
  rot : Vec3
  delta : Vec3
  axis : Axis
  perm : Axis × Axis × Axis
deriving DecidableEq, Repr

/-- The face-normal-to-orientation table `DIRECTIONS` of cursor.ts
lines 45-55, keyed by the cursor normal (the source keys by the string
`x + '/' + y + '/' + z`; the key is in bijection with the normal vector).
A miss returns `none` (the JS destructuring of `undefined` would throw). -/
def DIRECTIONS (d : Vec3) : Option DirEntry :=
  if d = ⟨1, 0, 0⟩ then some ⟨⟨0, 0, -1⟩, ⟨1, 1, 1⟩, Axis.x, (Axis.y, Axis.x, Axis.z)⟩
  else if d = ⟨-1, 0, 0⟩ then some ⟨⟨0, 0, 1⟩, ⟨-1, 1, 1⟩, Axis.x, (Axis.y, Axis.x, Axis.z)⟩
  else if d = ⟨0, 1, 0⟩ then some ⟨⟨0, 0, 0⟩, ⟨1, 1, 1⟩, Axis.y, (Axis.x, Axis.y, Axis.z)⟩
  else if d = ⟨0, -1, 0⟩ then some ⟨⟨0, 0, -2⟩, ⟨1, -1, 1⟩, Axis.y, (Axis.x, Axis.y, Axis.z)⟩
  else if d = ⟨0, 0, 1⟩ then some ⟨⟨1, 0, 0⟩, ⟨1, 1, 1⟩, Axis.z, (Axis.x, Axis.z, Axis.y)⟩
  else if d = ⟨0, 0, -1⟩ then some ⟨⟨-1, 0, 0⟩, ⟨1, 1, -1⟩, Axis.z, (Axis.x, Axis.z, Axis.y)⟩
  else none

/-- The cursor's geometric state: the fields of `Cursor` in cursor.ts that
carry editing semantics (`hover`, `minimum`, `maximum`, `start`,
`_direction`) plus the mesh transform fields written by the updates
(`position`, `scaling`).  `_direction` starts as the string `''` and is
otherwise one of the six direction keys, modelled as `Option Vec3`.
The render-only fields `rotation` (scaled by the irrational pi/2),
`alpha` and the screen-pixel `offset` (applied before the external
`createPickingRay`, i.e. before our `Ray` input is formed) are omitted. -/
structure CursorState where
  hover : Vec3
  minimum : Vec3
  maximum : Vec3
  start : Vec3
  direction : Option Vec3
  meshPosition : Vec3
  meshScaling : Vec3
deriving DecidableEq, Repr

/-- The cursor state set up by the `Cursor` constructor (cursor.ts
lines 57-78): all tracking vectors zero except `maximum = (1,1,1)`,
mesh position `VECTOR_HALF`, default scaling one, direction `''`. -/
def initialCursor : CursorState :=
  { hover := Vec3.zero
    minimum := Vec3.zero
    maximum := Vec3.one
    start := Vec3.zero
    direction := none
    meshPosition := Vec3.half
    meshScaling := Vec3.one }

/-- Hover update from a mesh pick, modelling `Cursor.updateFromPickTarget`
of cursor.ts lines 96-112.  Returns `none` exactly when the JS code would
throw (the `DIRECTIONS` destructuring of an undefined entry). -/
def updateFromPickTarget (c : CursorState) (ray : Ray) (pick : Option PickHit) :
    Option CursorState :=
  (getMousePickOnMesh ray pick).bind fun pr =>
    (DIRECTIONS pr.2).map fun e =>
      let start := Vec3.minimize pr.1 (pr.1.add e.delta)
      { c with
        direction := some pr.2
        hover := start
        meshPosition := start.add Vec3.half
        meshScaling := Vec3.one
        minimum := start
        maximum := start.add Vec3.one
        start := start }

/-- Drag update while the button is down, modelling
`Cursor.updateWithMouseDown` of cursor.ts lines 114-126.  The drag plane is
`axis = start[axis]` for the axis recorded in the direction table. -/
def updateWithMouseDown (c : CursorState) (ray : Ray) : Option CursorState :=
  (c.direction.bind DIRECTIONS).map fun e =>
    let position := getMousePickOnPlane ray e.axis (c.start.comp e.axis)
    let minimum := Vec3.minimize c.start position
    let maximum := (Vec3.maximize c.start position).add Vec3.one
    let scaling := maximum.sub minimum
    { c with
      hover := position
      minimum := minimum
      maximum := maximum
      meshPosition := (minimum.add maximum).scale (1/2)
      meshScaling := ⟨scaling.comp e.perm.1, scaling.comp e.perm.2.1, scaling.comp e.perm.2.2⟩ }

/-- One mouse event reaching the cursor: a plain pick (mouse move or down)
or a drag move with the button held (cursor.ts lines 80-93). -/
inductive CursorEvent
  | pick (ray : Ray) (hit : Option PickHit)
  | drag (ray : Ray)

/-- One cursor update step. -/
def cursorStep (c : CursorState) : CursorEvent → Option CursorState
  | CursorEvent.pick ray hit => updateFromPickTarget c ray hit
  | CursorEvent.drag ray => updateWithMouseDown c ray

/-- Running a sequence of cursor updates (failure, i.e. a JS throw,
propagates). -/
def cursorRun (c : CursorState) : List CursorEvent → Option CursorState
  | [] => some c
  | e :: es => (cursorStep c e).bind fun c2 => cursorRun c2 es

/-- A rational that is an integer. -/
def IsIntQ (q : ℚ) : Prop := ∃ n : ℤ, q = (n : ℚ)

/-- A vector all of whose components are integers. -/
def IsIntVec (v : Vec3) : Prop := IsIntQ v.x ∧ IsIntQ v.y ∧ IsIntQ v.z

/-- The identity of one loaded `Stage` as the pager sees it (index.ts
lines 615-621): its document url and its origin offset.  The grid and
object contents are irrelevant to the paging logic and modelled separately
by `stageDisposeTrace` below. -/
structure PStage where
  url : String
  pos : Vec3
deriving DecidableEq, Repr

/-- The state of one `StageManager` (index.ts lines 659-704) together with
the persistent `oldestURL` cell and observation logs.  `fetched` records
every network fetch `fetch(url)` issued by `doLoad` (in order);
`constructed` records every `new Stage(...)` construction; `disposedLog`
records every `stage.dispose()` call.  The logs are write-only in the
source semantics and exist so that theorems can speak about the calls. -/
structure PagerState where
  stages : List PStage
  isDisposed : Bool
  oldestURL : String
  fetched : List String
  constructed : List PStage
  disposedLog : List PStage
deriving DecidableEq, Repr

/-- The matching test of index.ts line 675:
`stage.url === url && stage.position.equals(position)`. -/
def stageMatches (st : PStage) (url : String) (pos : Vec3) : Bool :=
  st.url == url && st.pos == pos

/-- Completion of one queued load, modelling `StageManager.doLoad`
(index.ts lines 674-684) run to completion:

* if an active stage already matches `(url, position)`, nothing happens
  (no fetch);
* otherwise the document is fetched; if the pager was disposed by the time
  the fetch resolves, nothing further happens;
* otherwise a stage is constructed and pushed, the head is shifted and
  disposed when more than 2 stages are active, and the static
  `oldestURL` is set to `this.stages[0].url` (the list is provably
  nonempty there; the impossible empty case keeps the old value). -/
def doLoad (s : PagerState) (url : String) (pos : Vec3) : PagerState :=
  if s.stages.any (fun st => stageMatches st url pos) then s
  else
    let s1 := { s with fetched := s.fetched ++ [url] }
    if s1.isDisposed then s1
    else
      let st : PStage := ⟨url, pos⟩
      let s2 := { s1 with
        stages := s1.stages ++ [st]
        constructed := s1.constructed ++ [st] }
      let s3 :=
        if s2.stages.length > 2 then
          match s2.stages with
          | [] => s2
          | e :: rest => { s2 with stages := rest, disposedLog := s2.disposedLog ++ [e] }
        else s2
      match s3.stages with
      | [] => s3
      | st0 :: _ => { s3 with oldestURL := st0.url }

/-- One `loadFromURL` call (index.ts lines 689-692) once its queued
`doLoad` has run: the state transition plus the resolved value, which is
always the requested url. -/
def loadFromURL (s : PagerState) (url : String) (pos : Vec3) : PagerState × String :=
  (doLoad s url pos, url)

/-- The pager shutdown `StageManager.dispose` (index.ts lines 700-703):
disposes every active stage and sets the flag.  The active list itself is
not cleared by the source. -/
def pagerDispose (s : PagerState) : PagerState :=
  { s with disposedLog := s.disposedLog ++ s.stages, isDisposed := true }

/-- Sequential completion of a list of queued loads.  The single-flight
queue of `StageManager` (`addToQueue = queue()`, index.ts line 673; the
`queue` helper itself is outside the excerpt) serializes the `doLoad`
calls, so a batch of concurrent `loadFromURL` calls is modelled as a fold
in queue order. -/
def runLoads (s : PagerState) : List (String × Vec3) → PagerState
  | [] => s
  | (url, pos) :: rest => runLoads (doLoad s url pos) rest

/-- Events observed while a `Stage` is disposed: the optional
`stopPlaying` hook of the i-th object, the release of the i-th object,
and the release of the stage's chunks (TileGrid). -/
inductive DispEv
  | stopPlaying (i : Nat)
  | disposeObject (i : Nat)
  | disposeChunks
deriving DecidableEq, Repr

/-- Whether the event is a stop-playing hook invocation. -/
def DispEv.isStop : DispEv → Bool
  | DispEv.stopPlaying _ => true
  | _ => false

/-- Whether the event releases a resource (an object or the chunks). -/
def DispEv.isRelease : DispEv → Bool
  | DispEv.stopPlaying _ => false
  | _ => true

/-- The call sequence of `Stage.dispose` (index.ts lines 652-656) on a
stage whose i-th object defines a `stopPlaying` hook iff `hooks[i]`:
first `this.objects.forEach(o => o.stopPlaying && o.stopPlaying())`, then
`this.objects.forEach(o => o.dispose())`, then `this.chunks.dispose()`. -/
def stageDisposeTrace (hooks : List Bool) : List DispEv :=
  ((List.range hooks.length).filter fun i => hooks.getD i false).map DispEv.stopPlaying
    ++ (List.range hooks.length).map DispEv.disposeObject
    ++ [DispEv.disposeChunks]

/-- Object arguments: a finite string-keyed record of scalar values,
modelling the loose `args` objects of the editor. -/
abbrev Args := List (String × ℚ)

/-- Right-biased record merge, modelling
`Object.assign({ }, clsFound.args, restoreArgs)` (index.ts line 108):
keys of the first record not overridden, then the overriding keys. -/
def mergeArgs (base extra : Args) : Args :=
  base.filter (fun kv => !(extra.any fun kv2 => kv2.1 == kv.1)) ++ extra

/-- One entry of the external class registry `assets.classes`
(index.ts line 105): a numeric class id and its default arguments.
The constructible mesh type itself is an external collaborator. -/
structure ClassEntry where
  clsId : ℚ
  args : Args
deriving DecidableEq, Repr

/-- Persisted object record, modelling `map.objectsData[id]`
(index.ts line 113). -/
structure ObjData where
  clsId : ℚ
  args : Args
deriving DecidableEq, Repr

/-- The mutable editor state touched by `objectManager`
(index.ts lines 102-131): the scene's object meshes (by name), the
persisted object registry, the current selection, and a log of the class
ids for which `console.warn` was called. -/
structure EditorState where
  sceneMeshes : List String
  objectsData : List (String × ObjData)
  selectedObject : Option String
  warnedClsIds : List ℚ
deriving DecidableEq, Repr

/-- The `objectManager.destroy` operation (index.ts lines 121-130):
dispose the mesh named `id` if the scene has one (clearing the selection
if it was selected), then delete the persisted record. -/
def objDestroy (s : EditorState) (id : String) : EditorState :=
  let s1 :=
    if s.sceneMeshes.contains id then
      { s with
        selectedObject := if s.selectedObject = some id then none else s.selectedObject
        sceneMeshes := s.sceneMeshes.erase id }
    else s
  { s1 with objectsData := s1.objectsData.filter fun kv => kv.1 ≠ id }

/-- The `objectManager.create` operation (index.ts lines 103-120):
destroy any object with the same id, look the class id up in the registry;
on a hit construct the mesh, persist `{clsId, args}` and select it; on a
miss only `console.warn` (modelled by appending to `warnedClsIds`).
Totality of this function models that the JS code raises no exception on
the miss path. -/
def objCreate (classes : List ClassEntry) (s : EditorState) (id : String)
    (clsId : ℚ) (restoreArgs : Args) : EditorState :=
  let s1 := objDestroy s id
  match classes.find? fun c => c.clsId == clsId with
  | some cls =>
    { s1 with
      sceneMeshes := s1.sceneMeshes ++ [id]
      objectsData := s1.objectsData ++ [(id, ⟨clsId, mergeArgs cls.args restoreArgs⟩)]
      selectedObject := some id }
  | none => { s1 with warnedClsIds := s1.warnedClsIds ++ [clsId] }

/-- One tile value as written by the brushes: optional type and height
parts, modelling the JS object `{ t, h }` where a falsy (empty-string)
entry leaves that part of the pixel unchanged. -/
structure TilePixel where
  t : Option ℚ
  h : Option ℚ
deriving DecidableEq, Repr

/-- One `SetPixelAction(chunks, m, n, pixel)` pushed by the rectangle
brush (index.ts line 155). -/
structure PixelWrite where
  px : ℤ
  pz : ℤ
  pixel : TilePixel
deriving DecidableEq, Repr

/-- Integer range `[a, b)`, modelling `for (let m = a; m < b; m ++)`. -/
def intRange (a b : ℤ) : List ℤ :=
  (List.range (b - a).toNat).map fun i : ℕ => a + (i : ℤ)

/-- The pixel value committed by the shift-drag rectangle brush
(index.ts lines 151-152):
`{ t: selectedPixel.t, h: h && maximum.y - 1 + parseInt(h) }`.
`hSel = none` models the falsy height selection `''`; `hSel = some d`
models the selections `'+1'`, `'-1'`, `'0'` with `d = parseInt(h)`. -/
def rectPixel (selT : Option ℚ) (hSel : Option ℤ) (maxY : ℤ) : TilePixel :=
  ⟨selT, hSel.map fun d => ((maxY - 1 + d : ℤ) : ℚ)⟩

/-- The batch of pixel writes pushed by the shift-drag rectangle brush on
mouse-up (index.ts lines 150-158): one write per cell
`minimum.x <= m < maximum.x`, `minimum.z <= n < maximum.z`, all with the
same `rectPixel`.  The corners are taken as integers, which is the cursor
invariant established by `cursor_drag_volume_invariant` below. -/
def shiftRectActions (minX minZ maxX maxZ maxY : ℤ)
    (selT : Option ℚ) (hSel : Option ℤ) : List PixelWrite :=
  (intRange minX maxX).flatMap fun m =>
    (intRange minZ maxZ).map fun n => ⟨m, n, rectPixel selT hSel maxY⟩

/-- A pager with two active stages and clean logs, used to instantiate the
pager theorems on concrete data. -/
def pagerDemoTwo : PagerState :=
  { stages := [⟨"a.json", Vec3.zero⟩, ⟨"b.json", Vec3.zero⟩]
    isDisposed := false
    oldestURL := "a.json"
    fetched := ["a.json", "b.json"]
    constructed := [⟨"a.json", Vec3.zero⟩, ⟨"b.json", Vec3.zero⟩]
    disposedLog := [] }

/-- An empty freshly constructed pager. -/
def pagerDemoInit : PagerState :=
  { stages := []
    isDisposed := false
    oldestURL := ""
    fetched := []
    constructed := []
    disposedLog := [] }

/-- The pager after three distinct loads from the empty state. -/
def pagerDemoThree : PagerState :=
  doLoad (doLoad (doLoad pagerDemoInit "a.json" Vec3.zero) "b.json" Vec3.zero)
    "c.json" Vec3.zero

/-- The drag-volume invariant of the cursor: the recorded start and both
drag-rectangle corners are lattice points and the maximum corner exceeds
the minimum corner by at least one on every axis. -/
def CursorInv (c : CursorState) : Prop :=
  IsIntVec c.start ∧ IsIntVec c.minimum ∧ IsIntVec c.maximum ∧
  c.minimum.x + 1 ≤ c.maximum.x ∧ c.minimum.y + 1 ≤ c.maximum.y ∧
  c.minimum.z + 1 ≤ c.maximum.z

/-- A downward-looking demo ray used to instantiate the pick theorems. -/
def demoRayDown : Ray := ⟨⟨1/4, 10, 0⟩, ⟨0, -1, 0⟩⟩

/-- A demo cursor state mid-drag, facing up, with the drag started at the
origin. -/
def demoCursorDrag : CursorState :=
  { initialCursor with direction := some ⟨0, 1, 0⟩ }

/-- A one-entry class registry (class id 1) used for concrete instances. -/
def demoClasses : List ClassEntry := [⟨1, [("speed", 2)]⟩]

/-- An empty editor state used for concrete instances. -/
def demoEditor : EditorState :=
  { sceneMeshes := []
    objectsData := []
    selectedObject := none
    warnedClsIds := [] }

/-- A JS double as it occurs on the degenerate drag code path of cursor.ts
line 37: a finite value (exact rational), a signed infinity, or NaN.  The
exact-rational embedding `getMousePickOnPlane` is only faithful when the
divisor `ray.direction[axis]` is nonzero; the `JSNum` functions below model
the same source expressions under IEEE semantics so that the divide-by-zero
behaviour of the source can be stated and refuted precisely. -/
inductive JSNum
  | fin (q : ℚ)
  | posInf
  | negInf
  | nan
deriving DecidableEq, Repr

/-- Whether a JS value is finite.  An integer-valued corner coordinate is in
particular finite, so a non-finite corner refutes integrality. -/
def JSNum.isFinite : JSNum → Bool
  | JSNum.fin _ => true
  | _ => false

/-- JS division `a / b` for finite operands: finite when `b` is nonzero,
otherwise a signed infinity (or NaN for `0 / 0`).  The divisor here is the
raw double `ray.direction[axis]`, taken as `+0` when zero; a `-0` divisor
flips the sign of the infinity, which is equally non-finite. -/
def jsDiv (a b : ℚ) : JSNum :=
  if b = 0 then
    if a = 0 then JSNum.nan else if a > 0 then JSNum.posInf else JSNum.negInf
  else JSNum.fin (a / b)

/-- JS multiplication of a finite double by a possibly non-finite one
(`ray.direction.scale(scale)`, componentwise). -/
def jsMul (q : ℚ) : JSNum → JSNum
  | JSNum.fin r => JSNum.fin (q * r)
  | JSNum.posInf => if q > 0 then JSNum.posInf else if q < 0 then JSNum.negInf else JSNum.nan
  | JSNum.negInf => if q > 0 then JSNum.negInf else if q < 0 then JSNum.posInf else JSNum.nan
  | JSNum.nan => JSNum.nan

/-- JS addition of a finite double to a possibly non-finite one
(`ray.origin.add(...)`, componentwise). -/
def jsAdd (q : ℚ) : JSNum → JSNum
  | JSNum.fin r => JSNum.fin (q + r)
  | JSNum.posInf => JSNum.posInf
  | JSNum.negInf => JSNum.negInf
  | JSNum.nan => JSNum.nan

/-- The snapping `Math.floor(x + 0.5)` of cursor.ts line 39 under IEEE
semantics: `Math.floor` maps each infinity to itself and NaN to NaN. -/
def jsFloorHalf : JSNum → JSNum
  | JSNum.fin r => JSNum.fin ((⌊r + 1/2⌋ : ℤ) : ℚ)
  | x => x

/-- The JS comparison `other < this` with `this` finite, as evaluated by
Babylon's `Vector3.MinimizeInPlace`: NaN compares false. -/
def jsLt : JSNum → ℚ → Bool
  | JSNum.fin r, s => r < s
  | JSNum.posInf, _ => false
  | JSNum.negInf, _ => true
  | JSNum.nan, _ => false

/-- The JS comparison `other > this` with `this` finite, as evaluated by
Babylon's `Vector3.MaximizeInPlace`: NaN compares false. -/
def jsGt : JSNum → ℚ → Bool
  | JSNum.fin r, s => r > s
  | JSNum.posInf, _ => true
  | JSNum.negInf, _ => false
  | JSNum.nan, _ => false

/-- The scale computed by `getMousePickOnPlane` (cursor.ts line 37) under
IEEE semantics: `(val - ray.origin[axis]) / ray.direction[axis]`. -/
def jsDragScale (ray : Ray) (axis : Axis) (val : ℚ) : JSNum :=
  jsDiv (val - ray.origin.comp axis) (ray.direction.comp axis)

/-- One coordinate of the snapped plane-projected position (cursor.ts
lines 38-39) under IEEE semantics: `Math.floor(origin + direction * scale + 0.5)`
with origin and direction coordinates finite. -/
def jsPlanePosCoord (o d : ℚ) (scale : JSNum) : JSNum :=
  jsFloorHalf (jsAdd o (jsMul d scale))

/-- One coordinate of the drag minimum corner stored by
`updateWithMouseDown` (cursor.ts line 120) under IEEE semantics:
`Vector3.Minimize(start, position)` keeps `start` unless
`position < start` holds as a JS comparison. -/
def jsDragMinCoord (start : ℚ) (pos : JSNum) : JSNum :=
  if jsLt pos start then pos else JSNum.fin start

/-- One coordinate of the drag maximum corner stored by
`updateWithMouseDown` (cursor.ts line 121) under IEEE semantics:
`Vector3.Maximize(start, position).add(VECTOR_ONE)`. -/
def jsDragMaxCoord (start : ℚ) (pos : JSNum) : JSNum :=
  jsAdd 1 (if jsGt pos start then pos else JSNum.fin start)

/-- Whether one cursor event avoids the degenerate IEEE paths on which the
exact-rational embedding diverges from the source: a pick that misses every
surface with a ray parallel to the ground plane (the division of cursor.ts
line 26), or a drag whose ray is parallel to the drag plane (the division
of cursor.ts line 37).  On such events the source computes a non-finite
scale and can store non-finite corner coordinates (see
`jsDragMinCoord`). -/
def eventNondegenerate (c : CursorState) : CursorEvent → Bool
  | CursorEvent.pick _ (some _) => true
  | CursorEvent.pick ray none => !(ray.direction.y == 0)
  | CursorEvent.drag ray =>
    match c.direction.bind DIRECTIONS with
    | some e => !(ray.direction.comp e.axis == 0)
    | none => true

/-- Whether every event of a run avoids the degenerate IEEE paths, checked
along the states the run reaches (an event on which the model throws ends
the run, so later events are irrelevant). -/
def nondegenerateRun (c : CursorState) : List CursorEvent → Bool
  | [] => true
  | e :: es =>
    eventNondegenerate c e &&
      match cursorStep c e with
      | some c2 => nondegenerateRun c2 es
      | none => true

/-- A drag ray parallel to the y drag plane: origin above the plane,
direction along x. -/
def demoRayFlat : Ray := ⟨⟨0, 5, 0⟩, ⟨1, 0, 0⟩⟩

/-! Supporting lemmas about `doLoad`. -/

/-- A load whose key already matches an active stage changes nothing
(and fetches nothing). -/
theorem doLoad_of_match (s : PagerState) (url : String) (pos : Vec3)
    (hm : s.stages.any (fun st => stageMatches st url pos) = true) :
    doLoad s url pos = s := by
  simp only [doLoad, hm, if_true]

/-- A fresh load completing on a disposed pager only logs its fetch. -/
theorem doLoad_of_disposed (s : PagerState) (url : String) (pos : Vec3)
    (hm : s.stages.any (fun st => stageMatches st url pos) = false)
    (hd : s.isDisposed = true) :
    doLoad s url pos = { s with fetched := s.fetched ++ [url] } := by
  simp only [doLoad, hm, hd, Bool.false_eq_true, if_false, if_true]

/-- Full description of a fresh load completing while exactly two stages are
active: the head stage is evicted and disposed and the recorded oldest url
is the url of the surviving older stage. -/
theorem doLoad_two (s : PagerState) (url : String) (pos : Vec3) (a b : PStage)
    (hs : s.stages = [a, b])
    (hm : s.stages.any (fun st => stageMatches st url pos) = false)
    (hd : s.isDisposed = false) :
    doLoad s url pos =
      { s with
        stages := [b, ⟨url, pos⟩]
        fetched := s.fetched ++ [url]
        constructed := s.constructed ++ [(⟨url, pos⟩ : PStage)]
        disposedLog := s.disposedLog ++ [a]
        oldestURL := b.url } := by
  simp only [doLoad]
  rw [hm]
  simp only [Bool.false_eq_true, if_false, hd, hs]
  norm_num

/-- Full description of a fresh load completing on an empty pager. -/
theorem doLoad_nil (s : PagerState) (url : String) (pos : Vec3)
    (hs : s.stages = [])
    (hd : s.isDisposed = false) :
    doLoad s url pos =
      { s with
        stages := [⟨url, pos⟩]
        fetched := s.fetched ++ [url]
        constructed := s.constructed ++ [(⟨url, pos⟩ : PStage)]
        oldestURL := url } := by
  simp only [doLoad]
  rw [show s.stages.any (fun st => stageMatches st url pos) = false by rw [hs]; rfl]
  simp only [Bool.false_eq_true, if_false, hd, hs]
  norm_num

/-- Full description of a fresh load completing while one stage is active. -/
theorem doLoad_one (s : PagerState) (url : String) (pos : Vec3) (a : PStage)
    (hs : s.stages = [a])
    (hm : s.stages.any (fun st => stageMatches st url pos) = false)
    (hd : s.isDisposed = false) :
    doLoad s url pos =
      { s with
        stages := [a, ⟨url, pos⟩]
        fetched := s.fetched ++ [url]
        constructed := s.constructed ++ [(⟨url, pos⟩ : PStage)]
        oldestURL := a.url } := by
  simp only [doLoad]
  rw [hm]
  simp only [Bool.false_eq_true, if_false, hd, hs]
  norm_num

/-- A fresh load always records exactly one fetch for its url. -/
theorem doLoad_fetched (s : PagerState) (url : String) (pos : Vec3)
    (hm : s.stages.any (fun st => stageMatches st url pos) = false) :
    (doLoad s url pos).fetched = s.fetched ++ [url] := by
  simp only [doLoad, hm, Bool.false_eq_true, if_false]
  cases hd : s.isDisposed with
  | true => simp
  | false =>
    simp only [Bool.false_eq_true, if_false]
    cases hst : s.stages with
    | nil => simp
    | cons a rest =>
      by_cases hlen : (a :: rest ++ [(⟨url, pos⟩ : PStage)]).length > 2
      · simp only [hlen, if_true]
        cases rest <;> simp
      · simp only [hlen, if_false]
        simp

/-- A fresh load completing on a live pager leaves its own stage active. -/
theorem doLoad_self_mem (s : PagerState) (url : String) (pos : Vec3)
    (hm : s.stages.any (fun st => stageMatches st url pos) = false)
    (hd : s.isDisposed = false) :
    (⟨url, pos⟩ : PStage) ∈ (doLoad s url pos).stages := by
  simp only [doLoad, hm, hd, Bool.false_eq_true, if_false]
  cases hst : s.stages with
  | nil => simp
  | cons a rest =>
    by_cases hlen : (a :: rest ++ [(⟨url, pos⟩ : PStage)]).length > 2
    · simp only [hlen, if_true]
      cases rest <;> simp
    · simp only [hlen, if_false]
      simp

/-- On a disposed pager a completing load constructs nothing and leaves the
active list and the flag unchanged. -/
theorem doLoad_inert (s : PagerState) (url : String) (pos : Vec3)
    (hd : s.isDisposed = true) :
    (doLoad s url pos).constructed = s.constructed ∧
    (doLoad s url pos).stages = s.stages ∧
    (doLoad s url pos).isDisposed = true := by
  by_cases hm : s.stages.any (fun st => stageMatches st url pos) = true
  · rw [doLoad_of_match s url pos hm]
    exact ⟨rfl, rfl, hd⟩
  · rw [doLoad_of_disposed s url pos (Bool.not_eq_true _ ▸ hm) hd]
    exact ⟨rfl, rfl, hd⟩

/-- On a disposed pager an arbitrary batch of completing queued loads
constructs nothing and leaves the active list and the flag unchanged. -/
theorem runLoads_inert (loads : List (String × Vec3)) (s : PagerState)
    (hd : s.isDisposed = true) :
    (runLoads s loads).constructed = s.constructed ∧
    (runLoads s loads).stages = s.stages ∧
    (runLoads s loads).isDisposed = true := by
  induction loads generalizing s with
  | nil => exact ⟨rfl, rfl, hd⟩
  | cons l rest ih =>
    obtain ⟨h1, h2, h3⟩ := doLoad_inert s l.1 l.2 hd
    obtain ⟨g1, g2, g3⟩ := ih (doLoad s l.1 l.2) h3
    exact ⟨by rw [runLoads, g1, h1], by rw [runLoads, g2, h2], by rw [runLoads, g3]⟩

/-- C1: when a load of a third distinct (url, position) completes while two
stages are active on a live pager, the stage loaded first (index 0) is
removed and disposed and exactly two stages remain; moreover a completing
load never leaves more than two stages active. -/
theorem pager_fifo_eviction_cap (s : PagerState) (url : String) (pos : Vec3)
    (hcap : s.stages.length ≤ 2) :
    (doLoad s url pos).stages.length ≤ 2 ∧
    (∀ a b, s.stages = [a, b] → s.isDisposed = false →
      s.stages.any (fun st => stageMatches st url pos) = false →
      (doLoad s url pos).stages = [b, ⟨url, pos⟩] ∧
      (doLoad s url pos).disposedLog = s.disposedLog ++ [a] ∧
      (doLoad s url pos).stages.length = 2) := by
  constructor
  · by_cases hm : s.stages.any (fun st => stageMatches st url pos) = true
    · rw [doLoad_of_match s url pos hm]
      exact hcap
    · have hm2 : s.stages.any (fun st => stageMatches st url pos) = false :=
        Bool.not_eq_true _ ▸ hm
      cases hd : s.isDisposed with
      | true => rw [doLoad_of_disposed s url pos hm2 hd]; exact hcap
      | false =>
        match hs : s.stages, hcap with
        | [], _ => rw [doLoad_nil s url pos hs hd]; simp
        | [a], _ => rw [doLoad_one s url pos a hs (hs ▸ hm2) hd]; simp
        | [a, b], _ => rw [doLoad_two s url pos a b hs (hs ▸ hm2) hd]; simp
  · intro a b hs hd hm
    rw [doLoad_two s url pos a b hs hm hd]
    exact ⟨rfl, rfl, rfl⟩

/-- Witness for C1 on concrete data: loading "c.json" while "a.json" and
"b.json" are active evicts and disposes the "a.json" stage and leaves
exactly two stages. -/
theorem pager_fifo_eviction_cap_witness :
    (doLoad pagerDemoTwo "c.json" Vec3.zero).stages =
      [⟨"b.json", Vec3.zero⟩, ⟨"c.json", Vec3.zero⟩] ∧
    (doLoad pagerDemoTwo "c.json" Vec3.zero).disposedLog = [⟨"a.json", Vec3.zero⟩] ∧
    (doLoad pagerDemoTwo "c.json" Vec3.zero).stages.length ≤ 2 := by
  have h := pager_fifo_eviction_cap pagerDemoTwo "c.json" Vec3.zero (by decide)
  obtain ⟨h1, h2, h3⟩ :=
    h.2 ⟨"a.json", Vec3.zero⟩ ⟨"b.json", Vec3.zero⟩ rfl rfl (by decide)
  exact ⟨h1, h2, h.1⟩

/-- C2: two `loadFromURL` calls for the same (url, position), serialized by
the single-flight queue onto a live pager with no matching active stage,
perform exactly one fetch in total: the second call finds the stage the
first one constructed and changes nothing, and both calls resolve to the
requested url. -/
theorem pager_concurrent_dedup (s : PagerState) (url : String) (pos : Vec3)
    (hd : s.isDisposed = false)
    (hm : s.stages.any (fun st => stageMatches st url pos) = false) :
    (loadFromURL (loadFromURL s url pos).1 url pos).1.fetched = s.fetched ++ [url] ∧
    (loadFromURL (loadFromURL s url pos).1 url pos).1 = (loadFromURL s url pos).1 ∧
    (loadFromURL s url pos).2 = url ∧
    (loadFromURL (loadFromURL s url pos).1 url pos).2 = url := by
  have hmem := doLoad_self_mem s url pos hm hd
  have hmatch : (doLoad s url pos).stages.any
      (fun st => stageMatches st url pos) = true := by
    rw [List.any_eq_true]
    exact ⟨⟨url, pos⟩, hmem, by simp [stageMatches]⟩
  have hsecond : doLoad (doLoad s url pos) url pos = doLoad s url pos :=
    doLoad_of_match _ url pos hmatch
  refine ⟨?_, ?_, rfl, rfl⟩
  · show (doLoad (doLoad s url pos) url pos).fetched = s.fetched ++ [url]
    rw [hsecond, doLoad_fetched s url pos hm]
  · exact hsecond

/-- Witness for C2 on concrete data: two serialized loads of "c.json" from
the two-stage demo pager fetch "c.json" exactly once. -/
theorem pager_concurrent_dedup_witness :
    (loadFromURL (loadFromURL pagerDemoTwo "c.json" Vec3.zero).1 "c.json" Vec3.zero).1.fetched =
      ["a.json", "b.json", "c.json"] ∧
    (loadFromURL (loadFromURL pagerDemoTwo "c.json" Vec3.zero).1 "c.json" Vec3.zero).1 =
      (loadFromURL pagerDemoTwo "c.json" Vec3.zero).1 ∧
    (loadFromURL pagerDemoTwo "c.json" Vec3.zero).2 = "c.json" := by
  have h := pager_concurrent_dedup pagerDemoTwo "c.json" Vec3.zero (by decide) (by decide)
  exact ⟨h.1, h.2.1, h.2.2.1⟩

/-- C3: `dispose()` disposes every currently active stage, and no queued
load completing afterwards ever constructs a stage or appends to the
active list, however many loads arrive. -/
theorem pager_never_construct_after_dispose (s : PagerState)
    (loads : List (String × Vec3)) :
    (∀ st ∈ s.stages, st ∈ (pagerDispose s).disposedLog) ∧
    (runLoads (pagerDispose s) loads).constructed = s.constructed ∧
    (runLoads (pagerDispose s) loads).stages = (pagerDispose s).stages := by
  have hd : (pagerDispose s).isDisposed = true := rfl
  obtain ⟨h1, h2, _⟩ := runLoads_inert loads (pagerDispose s) hd
  refine ⟨?_, ?_, h2⟩
  · intro st hst
    show st ∈ s.disposedLog ++ s.stages
    exact List.mem_append_right _ hst
  · exact h1

/-- Witness for C3 on concrete data: after disposing the two-stage demo
pager, both active stages are in the disposed log and two further loads
construct nothing. -/
theorem pager_never_construct_after_dispose_witness :
    (⟨"a.json", Vec3.zero⟩ : PStage) ∈ (pagerDispose pagerDemoTwo).disposedLog ∧
    (runLoads (pagerDispose pagerDemoTwo)
      [("c.json", Vec3.zero), ("d.json", Vec3.zero)]).constructed =
      pagerDemoTwo.constructed := by
  have h := pager_never_construct_after_dispose pagerDemoTwo
    [("c.json", Vec3.zero), ("d.json", Vec3.zero)]
  exact ⟨h.1 ⟨"a.json", Vec3.zero⟩ (by decide), h.2.1⟩

/-- C4 counterexample: starting from an empty pager and loading the three
distinct urls "a.json", "b.json", "c.json", the third load evicts and
disposes the stage whose url is "a.json", yet the recorded resumable
oldest url is "b.json", not the evicted "a.json". -/
theorem pager_oldest_url_cex :
    pagerDemoThree.disposedLog = [⟨"a.json", Vec3.zero⟩] ∧
    pagerDemoThree.oldestURL = "b.json" ∧
    "b.json" ≠ "a.json" := by decide

/-- C4 (amended): when a load pushes the active count above the cap of 2,
the pager evicts and disposes the stage at index 0, and the url recorded
as the persistent resumable oldest url is the url of the stage at index 0
after the eviction, i.e. of the oldest remaining stage (not of the evicted
one). -/
theorem pager_oldest_url_amended (s : PagerState) (url : String) (pos : Vec3)
    (a b : PStage)
    (hs : s.stages = [a, b]) (hd : s.isDisposed = false)
    (hm : s.stages.any (fun st => stageMatches st url pos) = false) :
    (doLoad s url pos).stages = [b, ⟨url, pos⟩] ∧
    (doLoad s url pos).disposedLog = s.disposedLog ++ [a] ∧
    (doLoad s url pos).oldestURL = b.url := by
  rw [doLoad_two s url pos a b hs hm hd]
  exact ⟨rfl, rfl, rfl⟩

/-- Witness for the amended C4 on concrete data: loading "c.json" over
active "a.json", "b.json" disposes the "a.json" stage and records
"b.json" as the oldest url. -/
theorem pager_oldest_url_amended_witness :
    (doLoad pagerDemoTwo "c.json" Vec3.zero).stages =
      [⟨"b.json", Vec3.zero⟩, ⟨"c.json", Vec3.zero⟩] ∧
    (doLoad pagerDemoTwo "c.json" Vec3.zero).disposedLog = [⟨"a.json", Vec3.zero⟩] ∧
    (doLoad pagerDemoTwo "c.json" Vec3.zero).oldestURL = "b.json" := by
  exact pager_oldest_url_amended pagerDemoTwo "c.json" Vec3.zero
    ⟨"a.json", Vec3.zero⟩ ⟨"b.json", Vec3.zero⟩ rfl rfl (by decide)

/-! Supporting lemmas about the cursor geometry. -/

/-- Integer literals are integral rationals. -/
theorem IsIntQ.intCast (n : ℤ) : IsIntQ ((n : ℤ) : ℚ) := ⟨n, rfl⟩

/-- Sums of integral rationals are integral. -/
theorem IsIntQ.add {a b : ℚ} (ha : IsIntQ a) (hb : IsIntQ b) : IsIntQ (a + b) := by
  obtain ⟨m, rfl⟩ := ha
  obtain ⟨n, rfl⟩ := hb
  exact ⟨m + n, by push_cast; ring⟩

/-- Minima of integral rationals are integral. -/
theorem IsIntQ.min {a b : ℚ} (ha : IsIntQ a) (hb : IsIntQ b) : IsIntQ (min a b) := by
  rcases min_choice a b with h | h <;> rw [h] <;> assumption

/-- Maxima of integral rationals are integral. -/
theorem IsIntQ.max {a b : ℚ} (ha : IsIntQ a) (hb : IsIntQ b) : IsIntQ (max a b) := by
  rcases max_choice a b with h | h <;> rw [h] <;> assumption

/-- Snapping always yields a lattice point. -/
theorem snap_isIntVec (v : Vec3) : IsIntVec (snap v) :=
  ⟨⟨⌊v.x + 1/2⌋, rfl⟩, ⟨⌊v.y + 1/2⌋, rfl⟩, ⟨⌊v.z + 1/2⌋, rfl⟩⟩

/-- Vector sums of lattice points are lattice points. -/
theorem IsIntVec.addVec {a b : Vec3} (ha : IsIntVec a) (hb : IsIntVec b) :
    IsIntVec (a.add b) :=
  ⟨ha.1.add hb.1, ha.2.1.add hb.2.1, ha.2.2.add hb.2.2⟩

/-- Componentwise minima of lattice points are lattice points. -/
theorem IsIntVec.minimizeVec {a b : Vec3} (ha : IsIntVec a) (hb : IsIntVec b) :
    IsIntVec (Vec3.minimize a b) :=
  ⟨ha.1.min hb.1, ha.2.1.min hb.2.1, ha.2.2.min hb.2.2⟩

/-- Componentwise maxima of lattice points are lattice points. -/
theorem IsIntVec.maximizeVec {a b : Vec3} (ha : IsIntVec a) (hb : IsIntVec b) :
    IsIntVec (Vec3.maximize a b) :=
  ⟨ha.1.max hb.1, ha.2.1.max hb.2.1, ha.2.2.max hb.2.2⟩

/-- The all-ones vector is a lattice point. -/
theorem one_isIntVec : IsIntVec Vec3.one :=
  ⟨⟨1, by norm_num [Vec3.one]⟩, ⟨1, by norm_num [Vec3.one]⟩, ⟨1, by norm_num [Vec3.one]⟩⟩

/-- Every entry of the direction table has an integral delta. -/
theorem DIRECTIONS_delta_int {d : Vec3} {e : DirEntry} (he : DIRECTIONS d = some e) :
    IsIntVec e.delta := by
  have hone : IsIntQ (1 : ℚ) := ⟨1, by norm_num⟩
  have hneg : IsIntQ (-1 : ℚ) := ⟨-1, by norm_num⟩
  simp only [DIRECTIONS] at he
  split_ifs at he <;> cases he <;> exact ⟨by assumption, by assumption, by assumption⟩

/-- The normal resolution of cursor.ts lines 29-31 never misses: the
maximum of the three absolute components is itself one of the six signed
components, so the indexOf lookup lands inside `CURSOR_NORMALS`. -/
theorem cursorNorm_total (n : Vec3) : ∃ v ∈ CURSOR_NORMALS, cursorNorm n = some v := by
  have hmem : max |n.x| (max |n.y| |n.z|) ∈ [n.x, -n.x, n.y, -n.y, n.z, -n.z] := by
    rcases max_choice |n.x| (max |n.y| |n.z|) with h | h
    · rcases abs_choice n.x with h2 | h2 <;> rw [h, h2] <;> simp
    · rcases max_choice |n.y| |n.z| with h3 | h3
      · rcases abs_choice n.y with h2 | h2 <;> rw [h, h3, h2] <;> simp
      · rcases abs_choice n.z with h2 | h2 <;> rw [h, h3, h2] <;> simp
  have hlt : [n.x, -n.x, n.y, -n.y, n.z, -n.z].indexOf (max |n.x| (max |n.y| |n.z|)) <
      CURSOR_NORMALS.length := by
    have h6 := List.indexOf_lt_length.mpr hmem
    simpa [CURSOR_NORMALS] using h6
  refine ⟨CURSOR_NORMALS.get ⟨_, hlt⟩, List.get_mem _ _ _, ?_⟩
  simp only [cursorNorm]
  exact List.get?_eq_get hlt

/-- The upward normal resolves to itself through the direction machinery. -/
theorem cursorNorm_up : cursorNorm ⟨0, 1, 0⟩ = some ⟨0, 1, 0⟩ := by
  norm_num [cursorNorm, CURSOR_NORMALS, List.indexOf, List.findIdx, List.findIdx.go,
    beq_iff_eq, cond_eq_if, abs_of_nonneg, abs_of_nonpos, max_def]

/-- Plane projection always yields a lattice point. -/
theorem getMousePickOnPlane_isIntVec (ray : Ray) (axis : Axis) (val : ℚ) :
    IsIntVec (getMousePickOnPlane ray axis val) := by
  unfold getMousePickOnPlane
  exact snap_isIntVec _

/-- A pick-target update establishes the drag-volume invariant from any
prior state. -/
theorem updateFromPickTarget_inv (c : CursorState) (ray : Ray)
    (pick : Option PickHit) (c' : CursorState)
    (h : updateFromPickTarget c ray pick = some c') : CursorInv c' := by
  simp only [updateFromPickTarget, Option.bind_eq_some, Option.map_eq_some'] at h
  obtain ⟨pr, hpr, e, he, rfl⟩ := h
  have hsn : IsIntVec pr.1 := by
    simp only [getMousePickOnMesh, Option.map_eq_some'] at hpr
    obtain ⟨norm, hn, hpr⟩ := hpr
    rw [← hpr]
    exact snap_isIntVec _
  have hdelta : IsIntVec e.delta := DIRECTIONS_delta_int he
  have hstart : IsIntVec (Vec3.minimize pr.1 (pr.1.add e.delta)) :=
    hsn.minimizeVec (hsn.addVec hdelta)
  exact ⟨hstart, hstart, hstart.addVec one_isIntVec,
    by simp [Vec3.add, Vec3.one], by simp [Vec3.add, Vec3.one],
    by simp [Vec3.add, Vec3.one]⟩

/-- A drag update preserves the drag-volume invariant (only integrality of
the recorded start is needed). -/
theorem updateWithMouseDown_inv (c : CursorState) (ray : Ray) (c' : CursorState)
    (hstart : IsIntVec c.start) (h : updateWithMouseDown c ray = some c') :
    CursorInv c' := by
  simp only [updateWithMouseDown, Option.map_eq_some'] at h
  obtain ⟨e, he, rfl⟩ := h
  have hpos : IsIntVec (getMousePickOnPlane ray e.axis (c.start.comp e.axis)) :=
    getMousePickOnPlane_isIntVec ray e.axis (c.start.comp e.axis)
  refine ⟨hstart, hstart.minimizeVec hpos, (hstart.maximizeVec hpos).addVec one_isIntVec,
    ?_, ?_, ?_⟩ <;>
    simp [Vec3.minimize, Vec3.maximize, Vec3.add, Vec3.one, min_le_max]

/-- The drag-volume invariant is preserved along any run of cursor updates. -/
theorem cursorRun_inv (evs : List CursorEvent) (c0 c : CursorState)
    (h0 : CursorInv c0) (h : cursorRun c0 evs = some c) : CursorInv c := by
  induction evs generalizing c0 with
  | nil =>
    simp only [cursorRun, Option.some.injEq] at h
    exact h ▸ h0
  | cons e rest ih =>
    simp only [cursorRun, Option.bind_eq_some] at h
    obtain ⟨c1, h1, h2⟩ := h
    refine ih c1 ?_ h2
    cases e with
    | pick ray hitp => exact updateFromPickTarget_inv c0 ray hitp c1 h1
    | drag ray => exact updateWithMouseDown_inv c0 ray c1 h0.1 h1

/-- The constructor state satisfies the drag-volume invariant. -/
theorem initialCursor_inv : CursorInv initialCursor := by
  refine ⟨⟨⟨0, ?_⟩, ⟨0, ?_⟩, ⟨0, ?_⟩⟩, ⟨⟨0, ?_⟩, ⟨0, ?_⟩, ⟨0, ?_⟩⟩,
    ⟨⟨1, ?_⟩, ⟨1, ?_⟩, ⟨1, ?_⟩⟩, ?_, ?_, ?_⟩ <;>
    norm_num [initialCursor, Vec3.zero, Vec3.one]

/-- C5: the surface projection snaps every returned position per axis to
floor(coord + 0.5); on a hit the snapped point is the picked point, and
when no surface matching the predicate is hit (and the ray is not parallel
to the ground) the returned position is the snapped intersection of the
ray with the plane y = 0 and the returned normal is the upward unit
vector. -/
theorem pick_on_mesh_snap_and_fallback (ray : Ray) (pick : Option PickHit) :
    (∀ hit : PickHit, pick = some hit →
      ∃ norm ∈ CURSOR_NORMALS,
        getMousePickOnMesh ray pick = some (snap hit.pickedPoint, norm)) ∧
    (pick = none → ray.direction.y ≠ 0 →
      getMousePickOnMesh ray none = some (snap (groundPoint ray), ⟨0, 1, 0⟩) ∧
      (groundPoint ray).y = 0) := by
  constructor
  · rintro hit rfl
    obtain ⟨v, hv, hnorm⟩ := cursorNorm_total hit.normal
    exact ⟨v, hv, by simp only [getMousePickOnMesh, hnorm, Option.map_some']⟩
  · rintro rfl hy
    constructor
    · simp only [getMousePickOnMesh, cursorNorm_up, Option.map_some']
    · simp only [groundPoint, Vec3.add, Vec3.scale]
      field_simp
      ring

/-- Witness for C5: a straight-down ray that misses every surface lands on
the ground plane and reports the upward normal. -/
theorem pick_on_mesh_snap_and_fallback_witness :
    getMousePickOnMesh demoRayDown none =
      some (snap (groundPoint demoRayDown), ⟨0, 1, 0⟩) ∧
    (groundPoint demoRayDown).y = 0 :=
  (pick_on_mesh_snap_and_fallback demoRayDown none).2 rfl (by decide)

/-- C6: during a drag the corner update of `updateWithMouseDown` sets the
minimum corner to the elementwise minimum of the drag start and the
current plane-projected pointer position, and the maximum corner to their
elementwise maximum plus the unit vector. -/
theorem drag_rectangle_corners (c : CursorState) (ray : Ray) (d : Vec3) (e : DirEntry)
    (hdir : c.direction = some d) (he : DIRECTIONS d = some e) :
    ∃ c', updateWithMouseDown c ray = some c' ∧
      (let pos := getMousePickOnPlane ray e.axis (c.start.comp e.axis)
       c'.minimum.x = min c.start.x pos.x ∧ c'.minimum.y = min c.start.y pos.y ∧
       c'.minimum.z = min c.start.z pos.z ∧
       c'.maximum.x = max c.start.x pos.x + 1 ∧ c'.maximum.y = max c.start.y pos.y + 1 ∧
       c'.maximum.z = max c.start.z pos.z + 1) := by
  simp only [updateWithMouseDown, hdir, Option.some_bind, he, Option.map_some']
  exact ⟨_, rfl, rfl, rfl, rfl, rfl, rfl, rfl⟩

/-- Witness for C6 on concrete data: one drag step from the origin with an
upward-facing cursor. -/
theorem drag_rectangle_corners_witness :
    ∃ c', updateWithMouseDown demoCursorDrag demoRayDown = some c' ∧
      (let pos := getMousePickOnPlane demoRayDown Axis.y
        (demoCursorDrag.start.comp Axis.y)
       c'.minimum.x = min demoCursorDrag.start.x pos.x ∧
       c'.minimum.y = min demoCursorDrag.start.y pos.y ∧
       c'.minimum.z = min demoCursorDrag.start.z pos.z ∧
       c'.maximum.x = max demoCursorDrag.start.x pos.x + 1 ∧
       c'.maximum.y = max demoCursorDrag.start.y pos.y + 1 ∧
       c'.maximum.z = max demoCursorDrag.start.z pos.z + 1) :=
  drag_rectangle_corners demoCursorDrag demoRayDown ⟨0, 1, 0⟩
    ⟨⟨0, 0, 0⟩, ⟨1, 1, 1⟩, Axis.y, (Axis.x, Axis.y, Axis.z)⟩ rfl (by decide)

/-- On a drag whose ray is not parallel to the drag plane the IEEE scale
is finite and agrees with the exact-rational embedding. -/
theorem jsDragScale_agrees (ray : Ray) (axis : Axis) (val : ℚ)
    (hax : ray.direction.comp axis ≠ 0) :
    jsDragScale ray axis val =
      JSNum.fin ((val - ray.origin.comp axis) / ray.direction.comp axis) := by
  simp [jsDragScale, jsDiv, hax]

/-- Babylon's comparison-based minimum agrees with the rational minimum on
finite inputs. -/
theorem jsDragMinCoord_fin (s p : ℚ) :
    jsDragMinCoord s (JSNum.fin p) = JSNum.fin (min p s) := by
  simp only [jsDragMinCoord, jsLt, decide_eq_true_eq]
  split_ifs with h
  · rw [min_eq_left h.le]
  · rw [min_eq_right (not_lt.mp h)]

/-- Babylon's comparison-based maximum (plus the unit offset) agrees with
the rational maximum on finite inputs. -/
theorem jsDragMaxCoord_fin (s p : ℚ) :
    jsDragMaxCoord s (JSNum.fin p) = JSNum.fin (max p s + 1) := by
  simp only [jsDragMaxCoord, jsGt, decide_eq_true_eq]
  split_ifs with h
  · show JSNum.fin (1 + p) = JSNum.fin (max p s + 1)
    rw [max_eq_left h.le, add_comm]
  · show JSNum.fin (1 + s) = JSNum.fin (max p s + 1)
    rw [max_eq_right (not_lt.mp h), add_comm]

/-- The snapped plane position agrees with the rational formula on a
finite scale. -/
theorem jsPlanePosCoord_fin (o d s : ℚ) :
    jsPlanePosCoord o d (JSNum.fin s) = JSNum.fin ((⌊o + d * s + 1/2⌋ : ℤ) : ℚ) := rfl

/-- On every nondegenerate drag the IEEE corner computation agrees exactly
with the rational embedding: the six corner coordinates the source stores
are the finite values `updateWithMouseDown` computes, so the rational
model is faithful on the guarded domain. -/
theorem updateWithMouseDown_agrees_js (c : CursorState) (ray : Ray)
    (d0 : Vec3) (e : DirEntry) (c' : CursorState)
    (hdir : c.direction = some d0) (he : DIRECTIONS d0 = some e)
    (hax : ray.direction.comp e.axis ≠ 0)
    (hupd : updateWithMouseDown c ray = some c') :
    jsDragMinCoord c.start.x (jsPlanePosCoord ray.origin.x ray.direction.x
        (jsDragScale ray e.axis (c.start.comp e.axis))) = JSNum.fin c'.minimum.x ∧
    jsDragMinCoord c.start.y (jsPlanePosCoord ray.origin.y ray.direction.y
        (jsDragScale ray e.axis (c.start.comp e.axis))) = JSNum.fin c'.minimum.y ∧
    jsDragMinCoord c.start.z (jsPlanePosCoord ray.origin.z ray.direction.z
        (jsDragScale ray e.axis (c.start.comp e.axis))) = JSNum.fin c'.minimum.z ∧
    jsDragMaxCoord c.start.x (jsPlanePosCoord ray.origin.x ray.direction.x
        (jsDragScale ray e.axis (c.start.comp e.axis))) = JSNum.fin c'.maximum.x ∧
    jsDragMaxCoord c.start.y (jsPlanePosCoord ray.origin.y ray.direction.y
        (jsDragScale ray e.axis (c.start.comp e.axis))) = JSNum.fin c'.maximum.y ∧
    jsDragMaxCoord c.start.z (jsPlanePosCoord ray.origin.z ray.direction.z
        (jsDragScale ray e.axis (c.start.comp e.axis))) = JSNum.fin c'.maximum.z := by
  simp only [updateWithMouseDown, hdir, Option.some_bind, he, Option.map_some',
    Option.some.injEq] at hupd
  subst hupd
  rw [jsDragScale_agrees ray e.axis _ hax]
  simp only [jsPlanePosCoord_fin, jsDragMinCoord_fin, jsDragMaxCoord_fin]
  refine ⟨?_, ?_, ?_, ?_, ?_, ?_⟩ <;>
    simp [getMousePickOnPlane, snap, Vec3.minimize, Vec3.maximize, Vec3.add,
      Vec3.scale, Vec3.one, min_comm, max_comm]

/-- Concrete evaluation: the downward demo pick from the constructor state
lands at the origin with the upward normal and yields `demoCursorDrag`. -/
theorem pickStepEval :
    cursorStep initialCursor (CursorEvent.pick demoRayDown none) = some demoCursorDrag := by
  have hsnap : snap (groundPoint demoRayDown) = ⟨0, 0, 0⟩ := by
    have hground : groundPoint demoRayDown = ⟨1/4, 0, 0⟩ := by
      simp only [groundPoint, demoRayDown, Vec3.add, Vec3.scale]
      norm_num
    rw [hground]
    simp only [snap]
    norm_num [Int.floor_eq_iff]
  have hpick : getMousePickOnMesh demoRayDown none = some (⟨0, 0, 0⟩, ⟨0, 1, 0⟩) := by
    simp only [getMousePickOnMesh, cursorNorm_up, Option.map_some', hsnap]
  have hdirY : DIRECTIONS ⟨0, 1, 0⟩ =
      some ⟨⟨0, 0, 0⟩, ⟨1, 1, 1⟩, Axis.y, (Axis.x, Axis.y, Axis.z)⟩ := by decide
  show updateFromPickTarget initialCursor demoRayDown none = some demoCursorDrag
  simp only [updateFromPickTarget, hpick, Option.some_bind, hdirY, Option.map_some',
    Option.some.injEq]
  simp only [demoCursorDrag, initialCursor, Vec3.minimize, Vec3.add, Vec3.zero,
    Vec3.one, Vec3.half]
  norm_num [min_def]

/-- Concrete evaluation: the one-pick demo run reaches `demoCursorDrag`. -/
theorem pickRunEval :
    cursorRun initialCursor [CursorEvent.pick demoRayDown none] = some demoCursorDrag := by
  simp only [cursorRun, pickStepEval, Option.some_bind]

/-- Concrete evaluation: the one-pick demo run is nondegenerate (its ray
points straight down, not parallel to the ground plane). -/
theorem pickRunNondegenerate :
    nondegenerateRun initialCursor [CursorEvent.pick demoRayDown none] = true := by
  have hcond : eventNondegenerate initialCursor (CursorEvent.pick demoRayDown none) = true := by
    show !(demoRayDown.direction.y == 0) = true
    simp [demoRayDown]
  simp only [nondegenerateRun, hcond, pickStepEval, Bool.true_and]

/-- C10 counterexample: the one-pick run is reachable and leaves the
cursor dragging on the plane y = 0 with start at the origin; the next drag
with `demoRayFlat` (direction along x, parallel to that plane) is the
degenerate event, and under the source's IEEE semantics its scale is
`(0 - 5) / 0 = -Infinity`, the snapped x coordinate of the projected
position is `-Infinity`, and Babylon's comparison-based Minimize admits it
into the stored minimum corner, whose x coordinate is therefore not finite
and in particular not an integer — refuting the claim over unrestricted
runs. -/
theorem cursor_drag_volume_cex :
    cursorRun initialCursor [CursorEvent.pick demoRayDown none] = some demoCursorDrag ∧
    eventNondegenerate demoCursorDrag (CursorEvent.drag demoRayFlat) = false ∧
    jsDragScale demoRayFlat Axis.y (demoCursorDrag.start.comp Axis.y) = JSNum.negInf ∧
    (jsDragMinCoord demoCursorDrag.start.x
      (jsPlanePosCoord demoRayFlat.origin.x demoRayFlat.direction.x
        (jsDragScale demoRayFlat Axis.y (demoCursorDrag.start.comp Axis.y)))).isFinite
      = false := by
  refine ⟨pickRunEval, by decide, ?_, ?_⟩
  · norm_num [jsDragScale, jsDiv, demoRayFlat, demoCursorDrag, initialCursor,
      Vec3.zero, Vec3.comp]
  · norm_num [jsDragScale, jsDiv, jsPlanePosCoord, jsMul, jsAdd, jsFloorHalf,
      jsDragMinCoord, jsLt, JSNum.isFinite, demoRayFlat, demoCursorDrag,
      initialCursor, Vec3.zero, Vec3.comp]

/-- C10 (amended): after every run of cursor updates starting from the
constructor state in which no update takes a degenerate IEEE path (no
surface-missing pick whose ray is parallel to the ground plane and no drag
whose ray is parallel to the drag plane), both drag-rectangle corners are
lattice points and the maximum corner exceeds the minimum corner by at
least one on every axis, so the drag volume is never empty or inverted.
On the excluded events the source divides by a zero direction component
and stores non-finite corner coordinates (`cursor_drag_volume_cex`); on
the included events the rational embedding agrees with the IEEE evaluation
(`updateWithMouseDown_agrees_js`, `jsDragScale_agrees`). -/
theorem cursor_drag_volume_invariant (evs : List CursorEvent) (c : CursorState)
    (hnd : nondegenerateRun initialCursor evs = true)
    (h : cursorRun initialCursor evs = some c) :
    IsIntVec c.minimum ∧ IsIntVec c.maximum ∧
    c.minimum.x + 1 ≤ c.maximum.x ∧ c.minimum.y + 1 ≤ c.maximum.y ∧
    c.minimum.z + 1 ≤ c.maximum.z := by
  obtain ⟨_, h2, h3, h4, h5, h6⟩ := cursorRun_inv evs initialCursor c initialCursor_inv h
  exact ⟨h2, h3, h4, h5, h6⟩

/-- Witness for C10: the nondegenerate one-pick demo run ends in
`demoCursorDrag`, whose corners are integral with a unit gap. -/
theorem cursor_drag_volume_invariant_witness :
    IsIntVec demoCursorDrag.minimum ∧ IsIntVec demoCursorDrag.maximum ∧
    demoCursorDrag.minimum.x + 1 ≤ demoCursorDrag.maximum.x ∧
    demoCursorDrag.minimum.y + 1 ≤ demoCursorDrag.maximum.y ∧
    demoCursorDrag.minimum.z + 1 ≤ demoCursorDrag.maximum.z :=
  cursor_drag_volume_invariant [CursorEvent.pick demoRayDown none] demoCursorDrag
    pickRunNondegenerate pickRunEval

/-! Supporting lemmas for the object manager, stage disposal and the
rectangle brush. -/

/-- Destroying never touches the warning log. -/
theorem objDestroy_warned (s : EditorState) (id : String) :
    (objDestroy s id).warnedClsIds = s.warnedClsIds := by
  simp only [objDestroy]
  split <;> rfl

/-- Destroying filters the persisted registry down to the other keys. -/
theorem objDestroy_objectsData (s : EditorState) (id : String) :
    (objDestroy s id).objectsData = s.objectsData.filter fun kv => kv.1 ≠ id := by
  simp only [objDestroy]
  split <;> rfl

/-- Integer range membership matches the loop bounds. -/
theorem mem_intRange {a b m : ℤ} : m ∈ intRange a b ↔ a ≤ m ∧ m < b := by
  unfold intRange
  constructor
  · intro h
    obtain ⟨i, hir, heq⟩ := List.mem_map.mp h
    rw [List.mem_range] at hir
    omega
  · rintro ⟨h1, h2⟩
    refine List.mem_map.mpr ⟨(m - a).toNat, ?_, ?_⟩
    · rw [List.mem_range]
      omega
    · omega

/-- Events of the stop prefix of a disposal trace are stop events. -/
theorem stop_prefix_isStop (hooks : List Bool) (ev : DispEv)
    (h : ev ∈ ((List.range hooks.length).filter fun i => hooks.getD i false).map
      DispEv.stopPlaying) :
    ev.isStop = true ∧ ev.isRelease = false := by
  obtain ⟨i, _, rfl⟩ := List.mem_map.mp h
  exact ⟨rfl, rfl⟩

/-- Events of the release suffix of a disposal trace are release events. -/
theorem release_suffix_isRelease (hooks : List Bool) (ev : DispEv)
    (h : ev ∈ (List.range hooks.length).map DispEv.disposeObject ++
      [DispEv.disposeChunks]) :
    ev.isRelease = true ∧ ev.isStop = false := by
  rcases List.mem_append.mp h with h | h
  · obtain ⟨i, _, rfl⟩ := List.mem_map.mp h
    exact ⟨rfl, rfl⟩
  · rw [List.mem_singleton.mp h]
    exact ⟨rfl, rfl⟩

/-- The disposal trace splits into its stop prefix and release suffix. -/
theorem stageDisposeTrace_split (hooks : List Bool) :
    stageDisposeTrace hooks =
      ((List.range hooks.length).filter fun i => hooks.getD i false).map
        DispEv.stopPlaying ++
      ((List.range hooks.length).map DispEv.disposeObject ++ [DispEv.disposeChunks]) := by
  simp only [stageDisposeTrace, List.append_assoc]

/-- Variant of getD over an append, left side. -/
theorem getD_append_of_lt {α : Type} (l l2 : List α) (d : α) (n : ℕ)
    (h : n < l.length) : (l ++ l2).getD n d = l.getD n d := by
  simp [List.getD_eq_getElem?_getD, List.getElem?_append_left h]

/-- Variant of getD over an append, right side. -/
theorem getD_append_of_le {α : Type} (l l2 : List α) (d : α) (n : ℕ)
    (h : l.length ≤ n) : (l ++ l2).getD n d = l2.getD (n - l.length) d := by
  simp [List.getD_eq_getElem?_getD, List.getElem?_append_right h]

/-- The component lemma: an unknown class id leaves the registry filtered
only by the preliminary destroy. -/
theorem objCreate_miss_objectsData (classes : List ClassEntry) (s : EditorState)
    (id : String) (clsId : ℚ) (restoreArgs : Args)
    (hmiss : classes.find? (fun c => c.clsId == clsId) = none) :
    (objCreate classes s id clsId restoreArgs).objectsData =
      s.objectsData.filter fun kv => kv.1 ≠ id := by
  simp only [objCreate, hmiss]
  exact objDestroy_objectsData s id

/-- The component lemma: an unknown class id adds no mesh to the scene. -/
theorem objCreate_miss_sceneMeshes (classes : List ClassEntry) (s : EditorState)
    (id : String) (clsId : ℚ) (restoreArgs : Args)
    (hmiss : classes.find? (fun c => c.clsId == clsId) = none) :
    (objCreate classes s id clsId restoreArgs).sceneMeshes =
      (objDestroy s id).sceneMeshes := by
  simp only [objCreate, hmiss]

/-- The component lemma: an unknown class id is logged. -/
theorem objCreate_miss_warned (classes : List ClassEntry) (s : EditorState)
    (id : String) (clsId : ℚ) (restoreArgs : Args)
    (hmiss : classes.find? (fun c => c.clsId == clsId) = none) :
    (objCreate classes s id clsId restoreArgs).warnedClsIds =
      s.warnedClsIds ++ [clsId] := by
  simp only [objCreate, hmiss]
  rw [objDestroy_warned]

/-- C7: creating an object with a class id absent from the class registry
logs a warning and creates nothing: the registry ends up with no entry for
the id, the scene gains no mesh, and (per totality of the embedding) no
exception is raised; when the id was fresh, the whole operation is a
no-op apart from the logged warning. -/
theorem object_create_unknown_class (classes : List ClassEntry) (s : EditorState)
    (id : String) (clsId : ℚ) (restoreArgs : Args)
    (hmiss : classes.find? (fun c => c.clsId == clsId) = none) :
    (∀ kv ∈ (objCreate classes s id clsId restoreArgs).objectsData, kv.1 ≠ id) ∧
    (objCreate classes s id clsId restoreArgs).sceneMeshes =
      (objDestroy s id).sceneMeshes ∧
    (objCreate classes s id clsId restoreArgs).warnedClsIds =
      s.warnedClsIds ++ [clsId] ∧
    (s.sceneMeshes.contains id = false →
      (∀ kv ∈ s.objectsData, kv.1 ≠ id) →
      objCreate classes s id clsId restoreArgs =
        { s with warnedClsIds := s.warnedClsIds ++ [clsId] }) := by
  refine ⟨?_, objCreate_miss_sceneMeshes classes s id clsId restoreArgs hmiss,
    objCreate_miss_warned classes s id clsId restoreArgs hmiss, ?_⟩
  · intro kv hkv
    rw [objCreate_miss_objectsData classes s id clsId restoreArgs hmiss] at hkv
    exact of_decide_eq_true (List.mem_filter.mp hkv).2
  · intro hnotin hnokey
    have hdes : objDestroy s id = s := by
      simp only [objDestroy, hnotin, Bool.false_eq_true, if_false]
      have hfil : (s.objectsData.filter fun kv => decide (kv.1 ≠ id)) = s.objectsData :=
        List.filter_eq_self.mpr fun kv hkv => decide_eq_true (hnokey kv hkv)
      rw [hfil]
    have : objCreate classes s id clsId restoreArgs =
        { objDestroy s id with
          warnedClsIds := (objDestroy s id).warnedClsIds ++ [clsId] } := by
      simp only [objCreate, hmiss]
    rw [this, hdes]

/-- C8: disposing a Stage first invokes every present stop-playing hook
and only afterwards releases the objects and the chunks: each hooked
object's stop event and each object's release event occur in the trace,
the chunks release occurs, and every stop event strictly precedes every
release event, for any population of hooks. -/
theorem stage_dispose_stop_before_release (hooks : List Bool) :
    (∀ i, i < hooks.length → hooks.getD i false = true →
      DispEv.stopPlaying i ∈ stageDisposeTrace hooks) ∧
    (∀ i, i < hooks.length → DispEv.disposeObject i ∈ stageDisposeTrace hooks) ∧
    DispEv.disposeChunks ∈ stageDisposeTrace hooks ∧
    (∀ p q, ((stageDisposeTrace hooks).getD p DispEv.disposeChunks).isStop = true →
      q < (stageDisposeTrace hooks).length →
      ((stageDisposeTrace hooks).getD q (DispEv.stopPlaying 0)).isRelease = true →
      p < q) := by
  have hsplit := stageDisposeTrace_split hooks
  refine ⟨?_, ?_, ?_, ?_⟩
  · intro i hi hhook
    rw [hsplit]
    exact List.mem_append_left _
      (List.mem_map.mpr ⟨i, List.mem_filter.mpr ⟨List.mem_range.mpr hi, hhook⟩, rfl⟩)
  · intro i hi
    rw [hsplit]
    exact List.mem_append_right _
      (List.mem_append_left _ (List.mem_map.mpr ⟨i, List.mem_range.mpr hi, rfl⟩))
  · rw [hsplit]
    exact List.mem_append_right _ (List.mem_append_right _ (List.mem_singleton.mpr rfl))
  · intro p q hp hq hqrel
    rw [hsplit] at hp hqrel
    have hpA : p < (((List.range hooks.length).filter fun i => hooks.getD i false).map
        DispEv.stopPlaying).length := by
      by_contra hge
      push_neg at hge
      rw [getD_append_of_le _ _ _ _ hge] at hp
      by_cases hlt : p - (((List.range hooks.length).filter fun i => hooks.getD i false).map
          DispEv.stopPlaying).length <
          ((List.range hooks.length).map DispEv.disposeObject ++
            [DispEv.disposeChunks]).length
      · rw [List.getD_eq_getElem _ _ hlt] at hp
        have hm := List.getElem_mem hlt
        have := (release_suffix_isRelease hooks _ hm).2
        rw [hp] at this
        cases this
      · push_neg at hlt
        rw [List.getD_eq_default _ _ hlt] at hp
        cases hp
    have hqA : (((List.range hooks.length).filter fun i => hooks.getD i false).map
        DispEv.stopPlaying).length ≤ q := by
      by_contra hlt
      push_neg at hlt
      rw [getD_append_of_lt _ _ _ _ hlt] at hqrel
      rw [List.getD_eq_getElem _ _ hlt] at hqrel
      have hm := List.getElem_mem hlt
      have := (stop_prefix_isStop hooks _ hm).2
      rw [hqrel] at this
      cases this
    omega

/-- C9: committing the shift-drag rectangle brush with a non-empty height
selection writes, to every cell of the rectangle, a pixel whose height is
the maximum corner's y minus one plus the selected height delta; and every
cell of the rectangle receives such a write. -/
theorem shift_rect_flat_height (minX minZ maxX maxZ maxY : ℤ)
    (selT : Option ℚ) (d : ℤ) :
    (∀ w ∈ shiftRectActions minX minZ maxX maxZ maxY selT (some d),
      w.pixel.h = some ((maxY - 1 + d : ℤ) : ℚ)) ∧
    (∀ m n : ℤ, minX ≤ m → m < maxX → minZ ≤ n → n < maxZ →
      (⟨m, n, rectPixel selT (some d) maxY⟩ : PixelWrite) ∈
        shiftRectActions minX minZ maxX maxZ maxY selT (some d)) := by
  constructor
  · intro w hw
    unfold shiftRectActions at hw
    obtain ⟨m, hm, hw⟩ := List.mem_flatMap.mp hw
    obtain ⟨n, hn, rfl⟩ := List.mem_map.mp hw
    rfl
  · intro m n h1 h2 h3 h4
    unfold shiftRectActions
    exact List.mem_flatMap.mpr ⟨m, mem_intRange.mpr ⟨h1, h2⟩,
      List.mem_map.mpr ⟨n, mem_intRange.mpr ⟨h3, h4⟩, rfl⟩⟩

/-- Witness for C7: creating an object of unknown class id 2 in the empty
editor only logs the warning. -/
theorem object_create_unknown_class_witness :
    objCreate demoClasses demoEditor "object/tree/0001" 2 [] =
      { demoEditor with
        warnedClsIds := demoEditor.warnedClsIds ++ [2] } :=
  (object_create_unknown_class demoClasses demoEditor "object/tree/0001" 2 []
    (by decide)).2.2.2 (by decide) (by simp [demoEditor])

/-- Witness for C8: on a stage with a hooked and an unhooked object the
stop event is present and strictly precedes the releases. -/
theorem stage_dispose_stop_before_release_witness :
    DispEv.stopPlaying 0 ∈ stageDisposeTrace [true, false] ∧
    DispEv.disposeObject 1 ∈ stageDisposeTrace [true, false] ∧
    DispEv.disposeChunks ∈ stageDisposeTrace [true, false] ∧
    (0 : Nat) < 2 := by
  have h := stage_dispose_stop_before_release [true, false]
  exact ⟨h.1 0 (by decide) (by decide), h.2.1 1 (by decide), h.2.2.1,
    h.2.2.2 0 2 (by decide) (by decide) (by decide)⟩

/-- Witness for C9: the cell (0, 0) of a 2-by-1 rectangle with maximum
corner y = 5 and height selection +1 receives height 5 - 1 + 1. -/
theorem shift_rect_flat_height_witness :
    (⟨0, 0, rectPixel (some 3) (some 1) 5⟩ : PixelWrite) ∈
      shiftRectActions 0 0 2 1 5 (some 3) (some 1) ∧
    (rectPixel (some 3) (some 1) 5).h = some (((5 - 1 + 1 : ℤ) : ℤ) : ℚ) := by
  have h := shift_rect_flat_height 0 0 2 1 5 (some 3) 1
  have hw : (⟨0, 0, rectPixel (some 3) (some 1) 5⟩ : PixelWrite) ∈
      shiftRectActions 0 0 2 1 5 (some 3) (some 1) :=
    h.2 0 0 (by decide) (by decide) (by decide) (by decide)
  exact ⟨hw, h.1 _ hw⟩
